import Mathlib

/-
Verification of the weekplan reconciliation engine (src/main.ts, class
WeekplanView) against its specification.

Modelling conventions:
* The document is the YAML value held in `this.yamlData`, modelled as the
  closed record types of the data model (insight, goals, events).
* Timestamps (`new Date(s).getTime()`) are modelled as exact rationals,
  in milliseconds; durations in hours are rationals as well.
* JavaScript string fields that the code compares with `===` are `String`.
* `Event.taskId` and `Event.color` are `Option String`: `none` models an
  absent field; the JavaScript falsy check `x || d` on a present field is
  modelled by an explicit test against the empty string.
* `Task.estimated_hours` is the result of `parseFloat`: `none` models NaN
  (absent or non-numeric input), `some q` a parsed number.
* `Array.prototype.sort` is required by ECMAScript to be stable; it is
  modelled by the stable `List.insertionSort` (output of a stable sort is
  unique given a total, transitive comparison, proved below).
-/

namespace Weekplan

/-- An entry of `yamlData.events`.  The source field `end` is a Lean keyword
and is called `endTime` here. -/
structure Event where
  id : String
  taskId : Option String
  type : String
  title : String
  start : ℚ
  endTime : ℚ
  color : Option String
deriving DecidableEq

/-- An entry of `goals[i].items`. -/
structure Task where
  id : String
  title : String
  estimated_hours : Option ℚ
  status : String
deriving DecidableEq, Inhabited

/-- An entry of `yamlData.goals`. -/
structure Goal where
  role : String
  items : List Task
deriving DecidableEq, Inhabited

/-- The in-memory document `this.yamlData`. -/
structure Doc where
  insight : String
  goals : List Goal
  events : List Event
deriving DecidableEq

/-- The expression `ev.taskId || ev.id` (main.ts line 250): an absent or empty `taskId`
falls back to the event's own id (legacy linkage). -/
def effTaskId (ev : Event) : String :=
  match ev.taskId with
  | some t => if t = "" then ev.id else t
  | none => ev.id

/-- The duration `(new Date(ev.end).getTime() - new Date(ev.start).getTime()) / (1000*60*60)`
(main.ts lines 252-254). -/
def eventHours (ev : Event) : ℚ :=
  (ev.endTime - ev.start) / (1000 * 60 * 60)

/-- The `taskHours` map built by the `forEach` loop of `updateTaskStatuses`
(main.ts lines 246-258), as a total function defaulting to 0 (the source
reads it with `taskHours.get(task.id) || 0`).  The guard
`if (ev.start && ev.end)` is always true here because `start`/`end` are
required timestamps in the data model. -/
def taskHoursMap (events : List Event) : String → ℚ :=
  events.foldl
    (fun m ev =>
      if ev.type == "task" then
        fun tid => if tid = effTaskId ev then m tid + eventHours ev else m tid
      else m)
    (fun _ => 0)

/-- The total scheduled hours of a task, written directly as the sum over
matching `type=task` events; proved equal to `taskHoursMap` below. -/
def scheduledHours (events : List Event) (tid : String) : ℚ :=
  ((events.filter fun ev => ev.type == "task" && effTaskId ev == tid).map eventHours).sum

/-- The body of the per-task loop of `updateTaskStatuses`
(main.ts lines 261-274). -/
def deriveTaskStatus (events : List Event) (t : Task) : Task :=
  if t.status == "dropped" || t.status == "completed" then t
  else
    let totalScheduled := taskHoursMap events t.id
    -- `parseFloat(task.estimated_hours) || 1`: NaN and 0 both default to 1
    let estimated : ℚ :=
      match t.estimated_hours with
      | none => 1
      | some q => if q = 0 then 1 else q
    { t with status :=
        if totalScheduled = 0 then "pool"
        else if totalScheduled < estimated then "partial"
        else "scheduled" }

/-- The method `WeekplanView.updateTaskStatuses` (main.ts lines 243-276): the Status
Reconciler.  An absent `goals` field is the empty list, on which the early
return and the map agree. -/
def updateTaskStatuses (d : Doc) : Doc :=
  { d with goals := d.goals.map fun g => { g with items := g.items.map (deriveTaskStatus d.events) } }

/-- The comparator `(a, b) => new Date(a.start).getTime() - new Date(b.start).getTime()`
read as "a sorts no later than b". -/
def startLE (a b : Event) : Prop := a.start ≤ b.start

instance : DecidableRel startLE := fun a b => inferInstanceAs (Decidable (a.start ≤ b.start))

instance : IsTotal Event startLE := ⟨fun a b => le_total a.start b.start⟩

instance : IsTrans Event startLE := ⟨fun _ _ _ hab hbc => le_trans hab hbc⟩

/-- The call `events.sort((a, b) => new Date(a.start).getTime() - new Date(b.start).getTime())`
(main.ts lines 190-192 and 299-301), modelled by a stable sort. -/
def sortByStart (l : List Event) : List Event :=
  List.insertionSort startLE l

/-- The success path of the `syncBtn` click handler (main.ts lines 183-194):
remove every `type=outlook` event, append the fetched batch as-is, re-sort
by start.  No call to `updateTaskStatuses` occurs on this path. -/
def mergeExternal (d : Doc) (batch : List Event) : Doc :=
  { d with events := sortByStart ((d.events.filter fun ev => !(ev.type == "outlook")) ++ batch) }

/-- Outcome of the external fetch as seen by the `exec` callback
(main.ts lines 180-197). -/
inductive SyncOutcome where
  /-- The `exec` call reported an error (non-zero exit). -/
  | procError : SyncOutcome
  /-- Parsing via `JSON.parse(stdout)` threw: nothing ran after it. -/
  | parseError : SyncOutcome
  /-- Parsing succeeded with a non-iterable value, so
  `events.push(...newEvents)` threw — but only after the line
  `currentData.events = currentData.events.filter(ev => ev.type !== 'outlook')`
  had already run. -/
  | nonIterable : SyncOutcome
  /-- A well-formed array of event records. -/
  | ok : List Event → SyncOutcome
deriving DecidableEq

/-- The whole `exec` callback of the `syncBtn` click handler
(main.ts lines 180-197), by outcome of the external process. -/
def syncCallback (d : Doc) (r : SyncOutcome) : Doc :=
  match r with
  | .procError => d
  | .parseError => d
  | .nonIterable => { d with events := d.events.filter fun ev => !(ev.type == "outlook") }
  | .ok batch => mergeExternal d batch

/-- A calendar-widget event as handed to `handleEventChange` / `eventClick`
(FullCalendar's event object: `extendedProps` may be missing). -/
structure CalEvent where
  id : String
  title : String
  start : ℚ
  endTime : Option ℚ
  backgroundColor : Option String
  extTaskId : Option String
  extType : Option String
deriving DecidableEq

/-- The helper `formatLocalISO` (main.ts lines 238-241) prints the local wall-clock
time down to the minute with `:00` seconds; re-parsing the printed string
floors the timestamp to the minute. -/
def formatLocalISO (t : ℚ) : ℚ :=
  60000 * (⌊t / 60000⌋ : ℚ)

/-- The `newEventData` record of `handleEventChange` (main.ts lines 282-290):
`taskId: event.extendedProps?.taskId || event.id`, `type: 'task'`,
`end` defaulting to one hour after `start`,
`color: event.backgroundColor || '#10b981'`. -/
def newEventData (ev : CalEvent) : Event :=
  { id := ev.id
    taskId := some (match ev.extTaskId with
      | some t => if t = "" then ev.id else t
      | none => ev.id)
    type := "task"
    title := ev.title
    start := formatLocalISO ev.start
    endTime :=
      match ev.endTime with
      | some e => formatLocalISO e
      | none => formatLocalISO (ev.start + 1000 * 60 * 60)
    color := some (match ev.backgroundColor with
      | some c => if c = "" then "#10b981" else c
      | none => "#10b981") }

/-- The method `WeekplanView.handleEventChange` (main.ts lines 278-305).  The merge
`{...this.yamlData.events[eventIndex], ...newEventData}` replaces every
field of the stored record because `newEventData` defines all seven fields
of an event; then the list is re-sorted by start and the Status Reconciler
runs. -/
def handleEventChange (d : Doc) (ev : CalEvent) : Doc :=
  let nd := newEventData ev
  let events' :=
    match d.events.findIdx? (fun e => e.id == ev.id) with
    | some i => d.events.set i nd
    | none => d.events ++ [nd]
  updateTaskStatuses { d with events := sortByStart events' }

/-- The `eventClick` handler (main.ts lines 219-231): an `outlook` event is
rejected with a notice; otherwise, on confirmation, the event is removed
and the Status Reconciler runs. -/
def eventClickDelete (d : Doc) (ev : CalEvent) (confirmed : Bool) : Doc :=
  if ev.extType == some "outlook" then d
  else if confirmed then
    updateTaskStatuses { d with events := d.events.filter fun e => !(e.id == ev.id) }
  else d

/-- The leave-raw-text branch of the `toggleModeBtn` click handler
(main.ts lines 157-169).  `load` is the out-of-scope YAML parser
(`none` models a parse exception).  Returns the resulting `isSourceMode`
flag and the in-memory document: on failure the catch block restores
`isSourceMode = true` and never touches `yamlData`; on success the raw
text is persisted and `setViewData` re-parses it into `yamlData`. -/
def toggleLeaveSource (load : String → Option Doc) (d : Doc) (text : String) : Bool × Doc :=
  match load text with
  | none => (true, d)
  | some parsed => (false, parsed)

/-- Modelled from the spec: the External Sync Merger as section 4.3 words
it — remove every `type=outlook` event, append the batch, re-sort by
`start`, and run the Status Reconciler.  Kept separate from `mergeExternal`
(the source) for comparison. -/
def mergeExternalSpec (d : Doc) (batch : List Event) : Doc :=
  updateTaskStatuses
    { d with events := sortByStart ((d.events.filter fun ev => !(ev.type == "outlook")) ++ batch) }

/-! ### The `taskHours` map computes the per-task scheduled sum -/

/-- Unfolding lemma for `scheduledHours`. -/
theorem scheduledHours_cons (ev : Event) (rest : List Event) (tid : String) :
    scheduledHours (ev :: rest) tid =
      (if ev.type == "task" && effTaskId ev == tid then eventHours ev else 0) +
        scheduledHours rest tid := by
  simp only [scheduledHours, List.filter_cons]
  split_ifs with h
  · simp
  · simp

/-- The value of the `taskHours` map at a key is the sum of `(end-start)`
hours over the matching `type=task` events. -/
theorem taskHoursMap_eq_scheduledHours (events : List Event) (tid : String) :
    taskHoursMap events tid = scheduledHours events tid := by
  have go : ∀ (evs : List Event) (m : String → ℚ),
      (evs.foldl
        (fun m ev =>
          if ev.type == "task" then
            fun t => if t = effTaskId ev then m t + eventHours ev else m t
          else m) m) tid = m tid + scheduledHours evs tid := by
    intro evs
    induction evs with
    | nil => intro m; simp [scheduledHours]
    | cons ev rest ih =>
      intro m
      rw [List.foldl_cons, ih, scheduledHours_cons]
      by_cases h1 : ev.type == "task"
      · by_cases h2 : tid = effTaskId ev
        · have h2' : effTaskId ev == tid := by simp [h2]
          simp [h1, h2, h2', add_assoc]
        · have h2' : ¬(effTaskId ev == tid) := by simpa using fun h => h2 h.symm
          simp [h1, h2, h2']
      · simp [h1]
  unfold taskHoursMap
  simpa [scheduledHours] using go events (fun _ => 0)

/-! ### Stability of the sort

`Array.prototype.sort` with the comparator on `start` is stable
(ECMAScript requirement); the output of a stable sort is characterized,
uniquely, by being sorted, a permutation of the input, and preserving the
input subsequence at each fixed `start` value.  The model's
`List.insertionSort` satisfies this characterization. -/

/-- Insertion via `orderedInsert` places an element only after strictly earlier starts,
so the subsequence at a fixed `start` value gains the element at the front
exactly when the starts agree. -/
theorem filter_start_orderedInsert (k : ℚ) (a : Event) (l : List Event) :
    (l.orderedInsert startLE a).filter (fun e => e.start == k) =
      if a.start = k then a :: l.filter (fun e => e.start == k)
      else l.filter (fun e => e.start == k) := by
  induction l with
  | nil => by_cases h : a.start = k <;> simp [List.orderedInsert, h]
  | cons b bs ih =>
    rw [List.orderedInsert]
    by_cases hab : startLE a b
    · rw [if_pos hab]
      by_cases h : a.start = k <;> simp [List.filter_cons, h]
    · rw [if_neg hab]
      have hba : b.start < a.start := not_le.mp hab
      by_cases h : a.start = k
      · have hb : ¬(b.start = k) := by rw [← h]; exact ne_of_lt hba
        simp [List.filter_cons, hb, ih, h]
      · simp [List.filter_cons, ih, h]

/-- The model's sort preserves the input subsequence at each fixed
`start` value (stability). -/
theorem filter_start_sortByStart (k : ℚ) (l : List Event) :
    (sortByStart l).filter (fun e => e.start == k) = l.filter (fun e => e.start == k) := by
  rw [sortByStart]
  induction l with
  | nil => rfl
  | cons a t ih =>
    rw [List.insertionSort, filter_start_orderedInsert]
    by_cases h : a.start = k <;> simp [List.filter_cons, h, ih]

/-- Uniqueness of the stable-sort characterization: two sorted lists that
are permutations of each other and agree on the subsequence at every
`start` value are equal. -/
theorem eq_of_sorted_of_filter_start :
    ∀ m₁ m₂ : List Event, m₁.Perm m₂ → m₁.Pairwise startLE → m₂.Pairwise startLE →
      (∀ k : ℚ, m₁.filter (fun e => e.start == k) = m₂.filter (fun e => e.start == k)) →
      m₁ = m₂ := by
  intro m₁
  induction m₁ with
  | nil =>
    intro m₂ hp _ _ _
    exact hp.nil_eq
  | cons a t₁ ih =>
    intro m₂ hp hs₁ hs₂ hf
    cases m₂ with
    | nil =>
      exact absurd hp.eq_nil (by simp)
    | cons b t₂ =>
      have hstart : a.start = b.start := by
        have ha2 : a ∈ b :: t₂ := hp.mem_iff.mp (List.mem_cons_self a t₁)
        have hb1 : b ∈ a :: t₁ := hp.mem_iff.mpr (List.mem_cons_self b t₂)
        rcases List.mem_cons.mp ha2 with h | h
        · rw [h]
        · rcases List.mem_cons.mp hb1 with h' | h'
          · rw [h']
          · exact le_antisymm ((List.pairwise_cons.mp hs₁).1 b h')
              ((List.pairwise_cons.mp hs₂).1 a h)
      have hhead : a = b := by
        have h := hf a.start
        rw [List.filter_cons, List.filter_cons] at h
        simp only [← hstart, beq_self_eq_true, if_pos] at h
        exact (List.cons_eq_cons.mp h).1
      subst hhead
      have hp' : t₁.Perm t₂ := hp.cons_inv
      have hf' : ∀ k : ℚ, t₁.filter (fun e => e.start == k) = t₂.filter (fun e => e.start == k) := by
        intro k
        have h := hf k
        rw [List.filter_cons, List.filter_cons] at h
        by_cases hk : a.start = k
        · simp only [hk, beq_self_eq_true, if_pos] at h
          exact (List.cons_eq_cons.mp h).2
        · have : ¬(a.start == k) := by simpa using hk
          simpa [this] using h
      rw [ih t₂ hp' (List.pairwise_cons.mp hs₁).2 (List.pairwise_cons.mp hs₂).2 hf']

/-- The sort only depends on the input through its multiset of elements
and its subsequences at each `start` value. -/
theorem sortByStart_congr (l₁ l₂ : List Event) (hp : l₁.Perm l₂)
    (hf : ∀ k : ℚ, l₁.filter (fun e => e.start == k) = l₂.filter (fun e => e.start == k)) :
    sortByStart l₁ = sortByStart l₂ := by
  refine eq_of_sorted_of_filter_start _ _ ?_ ?_ ?_ ?_
  · exact ((List.perm_insertionSort startLE l₁).trans hp).trans
      (List.perm_insertionSort startLE l₂).symm
  · exact List.sorted_insertionSort startLE l₁
  · exact List.sorted_insertionSort startLE l₂
  · intro k
    rw [filter_start_sortByStart, filter_start_sortByStart]
    exact hf k

/-! ### Claims about the Status Reconciler -/

/-- Claim C1: for every task whose status is not `completed` or `dropped`,
the Status Reconciler (`updateTaskStatuses`) sets its status from the total
scheduled hours — the sum of `(end - start)` in fractional hours over all
`type=task` events whose `taskId` (or, absent `taskId`, whose `id`) equals
the task's id: `pool` when the total is 0, `partial` when it is strictly
less than `estimated_hours`, `scheduled` when it is at least
`estimated_hours`.  (`estimated_hours` is a positive real per the data
model; `e` is its parsed value.) -/
theorem C1_reconciler_status (d : Doc) (i j : ℕ)
    (hi : i < d.goals.length) (hj : j < d.goals[i].items.length)
    (hi' : i < (updateTaskStatuses d).goals.length)
    (hj' : j < (updateTaskStatuses d).goals[i].items.length)
    (hc : d.goals[i].items[j].status ≠ "completed")
    (hd : d.goals[i].items[j].status ≠ "dropped")
    (e : ℚ) (he : d.goals[i].items[j].estimated_hours = some e) (hpos : 0 < e) :
    (updateTaskStatuses d).goals[i].items[j].status =
      if scheduledHours d.events d.goals[i].items[j].id = 0 then "pool"
      else if scheduledHours d.events d.goals[i].items[j].id < e then "partial"
      else "scheduled" := by
  have hget : (updateTaskStatuses d).goals[i].items[j] =
      deriveTaskStatus d.events d.goals[i].items[j] := by
    simp [updateTaskStatuses]
  rw [hget]
  simp [deriveTaskStatus, hc, hd, he, ne_of_gt hpos, taskHoursMap_eq_scheduledHours]

def dC1 : Doc :=
  { insight := ""
    goals := [{ role := "r",
                items := [{ id := "t1", title := "a", estimated_hours := some 2,
                            status := "pool" }] }]
    events := [{ id := "e1", taskId := some "t1", type := "task", title := "a",
                 start := 0, endTime := 3600000, color := none }] }

theorem C1_witness :
    scheduledHours dC1.events "t1" = 1 ∧
    (updateTaskStatuses dC1).goals[0].items[0].status = "partial" := by
  have hs : scheduledHours dC1.events "t1" = 1 := by
    simp +decide [scheduledHours, dC1, eventHours, effTaskId, List.filter_cons]
    norm_num
  refine ⟨hs, ?_⟩
  have h := C1_reconciler_status dC1 0 0 (by decide) (by decide) (by decide) (by decide)
      (by decide) (by decide) 2 (by decide) (by norm_num)
  rw [h]
  show (if scheduledHours dC1.events "t1" = 0 then "pool"
    else if scheduledHours dC1.events "t1" < 2 then "partial" else "scheduled") = "partial"
  rw [hs]
  norm_num

/-- Claim C6: a task whose status is `completed` or `dropped` is never
changed by the Status Reconciler, whatever the events list contains. -/
theorem C6_manual_statuses_immune (d : Doc) (i j : ℕ)
    (hi : i < d.goals.length) (hj : j < d.goals[i].items.length)
    (hi' : i < (updateTaskStatuses d).goals.length)
    (hj' : j < (updateTaskStatuses d).goals[i].items.length)
    (h : d.goals[i].items[j].status = "completed" ∨
         d.goals[i].items[j].status = "dropped") :
    (updateTaskStatuses d).goals[i].items[j].status = d.goals[i].items[j].status := by
  have hget : (updateTaskStatuses d).goals[i].items[j] =
      deriveTaskStatus d.events d.goals[i].items[j] := by
    simp [updateTaskStatuses]
  rw [hget]
  rcases h with h | h <;> simp [deriveTaskStatus, h]

def dC6 : Doc :=
  { insight := ""
    goals := [{ role := "r",
                items := [{ id := "t1", title := "a", estimated_hours := some 2,
                            status := "completed" }] }]
    events := [{ id := "e1", taskId := some "t1", type := "task", title := "a",
                 start := 0, endTime := 36000000, color := none }] }

theorem C6_witness :
    (dC6.goals[0].items[0].status = "completed" ∨
      dC6.goals[0].items[0].status = "dropped") ∧
    (updateTaskStatuses dC6).goals[0].items[0].status = dC6.goals[0].items[0].status :=
  ⟨Or.inl rfl,
    C6_manual_statuses_immune dC6 0 0 (by decide) (by decide) (by decide) (by decide)
      (Or.inl rfl)⟩

/-- Claim C10: a task whose `estimated_hours` parses to 0 or NaN (`none`
models NaN: absent or non-numeric input) is given an effective estimate of
1 hour by `parseFloat(task.estimated_hours) || 1`, so with any nonzero
scheduled total below 1 hour its derived status is `partial`, not
`scheduled`. -/
theorem C10_zero_estimate_defaults (d : Doc) (i j : ℕ)
    (hi : i < d.goals.length) (hj : j < d.goals[i].items.length)
    (hi' : i < (updateTaskStatuses d).goals.length)
    (hj' : j < (updateTaskStatuses d).goals[i].items.length)
    (hc : d.goals[i].items[j].status ≠ "completed")
    (hd : d.goals[i].items[j].status ≠ "dropped")
    (hz : d.goals[i].items[j].estimated_hours = none ∨
          d.goals[i].items[j].estimated_hours = some 0)
    (hne : scheduledHours d.events d.goals[i].items[j].id ≠ 0)
    (hlt : scheduledHours d.events d.goals[i].items[j].id < 1) :
    (updateTaskStatuses d).goals[i].items[j].status = "partial" := by
  have hget : (updateTaskStatuses d).goals[i].items[j] =
      deriveTaskStatus d.events d.goals[i].items[j] := by
    simp [updateTaskStatuses]
  rw [hget]
  rw [show scheduledHours d.events d.goals[i].items[j].id =
      taskHoursMap d.events d.goals[i].items[j].id from
    (taskHoursMap_eq_scheduledHours _ _).symm] at hne hlt
  rcases hz with hz | hz <;> simp [deriveTaskStatus, hc, hd, hz, hne, hlt]

def dC10 : Doc :=
  { insight := ""
    goals := [{ role := "r",
                items := [{ id := "t1", title := "a", estimated_hours := some 0,
                            status := "pool" }] }]
    events := [{ id := "e1", taskId := some "t1", type := "task", title := "a",
                 start := 0, endTime := 1800000, color := none }] }

theorem C10_witness :
    scheduledHours dC10.events "t1" = 1 / 2 ∧
    (updateTaskStatuses dC10).goals[0].items[0].status = "partial" := by
  have hs : scheduledHours dC10.events "t1" = 1 / 2 := by
    simp +decide [scheduledHours, dC10, eventHours, effTaskId, List.filter_cons]
    norm_num
  refine ⟨hs, ?_⟩
  exact C10_zero_estimate_defaults dC10 0 0 (by decide) (by decide) (by decide) (by decide)
    (by decide) (by decide) (Or.inr rfl)
    (by rw [show dC10.goals[0].items[0].id = "t1" from rfl, hs]; norm_num)
    (by rw [show dC10.goals[0].items[0].id = "t1" from rfl, hs]; norm_num)

/-! ### Claims about the Edit-Mode Consistency Guard -/

/-- Claim C5: when leaving raw-text edit mode with text that fails to
parse, the mode switch is rejected (the user stays in raw-text mode, with
a validation notice) and the in-memory structured document is bit-identical
to the one before the attempt. -/
theorem C5_mode_switch_safety (load : String → Option Doc) (d : Doc) (text : String)
    (h : load text = none) :
    toggleLeaveSource load d text = (true, d) := by
  simp [toggleLeaveSource, h]

def dC5 : Doc :=
  { insight := "i"
    goals := [{ role := "r", items := [] }]
    events := [] }

theorem C5_witness :
    (fun _ : String => (none : Option Doc)) "not: valid: yaml:" = none ∧
    toggleLeaveSource (fun _ => none) dC5 "not: valid: yaml:" = (true, dC5) :=
  ⟨rfl, C5_mode_switch_safety (fun _ => none) dC5 "not: valid: yaml:" rfl⟩

/-! ### Claims about sorting and the External Sync Merger -/

/-- Claim C8: after every calendar change applied by `handleEventChange`
(create, move or resize) and after every `mergeExternal`, the events list
is non-decreasing in the events' `start` timestamps. -/
theorem C8_sort_invariant (d : Doc) (ev : CalEvent) (batch : List Event) :
    (handleEventChange d ev).events.Pairwise (fun a b => a.start ≤ b.start) ∧
    (mergeExternal d batch).events.Pairwise (fun a b => a.start ≤ b.start) := by
  constructor
  · have h : (handleEventChange d ev).events =
        sortByStart (match d.events.findIdx? (fun e => e.id == ev.id) with
          | some i => d.events.set i (newEventData ev)
          | none => d.events ++ [newEventData ev]) := rfl
    rw [h]
    exact List.sorted_insertionSort startLE _
  · exact List.sorted_insertionSort startLE _

/-- The document used to separate `mergeExternal` from the specified
behaviour: its only task carries a stale `scheduled` status that the
Status Reconciler would reset to `pool`. -/
def dC2 : Doc :=
  { insight := ""
    goals := [{ role := "r",
                items := [{ id := "t1", title := "a", estimated_hours := some 1,
                            status := "scheduled" }] }]
    events := [] }

/-- Claim C2 as stated is false on the code: the sync handler filters,
appends and re-sorts, but never invokes the Status Reconciler
(`updateTaskStatuses` is not called anywhere in the `syncBtn` handler), so
a stale status survives a sync that the claimed behaviour would reset. -/
theorem C2_counterexample : mergeExternal dC2 [] ≠ mergeExternalSpec dC2 [] := by
  intro h
  have h1 : (mergeExternal dC2 []).goals[0]!.items[0]!.status = "scheduled" := rfl
  have h2 : (mergeExternalSpec dC2 []).goals[0]!.items[0]!.status = "pool" := by
    simp +decide [mergeExternalSpec, updateTaskStatuses, deriveTaskStatus, taskHoursMap,
      dC2, mergeExternal, sortByStart, List.insertionSort]
  rw [h] at h1
  rw [h1] at h2
  exact absurd h2 (by decide)

/-- Claim C2 (amended): given a document and an incoming external batch,
the sync handler removes every existing `type=outlook` event, appends every
incoming entry, and re-sorts the events by `start`; it leaves `insight` and
`goals` (hence every task status) untouched — the Status Reconciler is not
run. -/
theorem C2_merger_amended (d : Doc) (batch : List Event) :
    (mergeExternal d batch).events.Perm
      ((d.events.filter fun ev => !(ev.type == "outlook")) ++ batch) ∧
    (mergeExternal d batch).events.Pairwise (fun a b => a.start ≤ b.start) ∧
    (mergeExternal d batch).goals = d.goals ∧
    (mergeExternal d batch).insight = d.insight :=
  ⟨List.perm_insertionSort startLE _, List.sorted_insertionSort startLE _, rfl, rfl⟩

/-- Two filters commute. -/
theorem filter_swap (p q : Event → Bool) (l : List Event) :
    (l.filter p).filter q = (l.filter q).filter p := by
  rw [List.filter_filter, List.filter_filter]
  exact List.filter_congr fun a _ => Bool.and_comm _ _

/-- Claim C3: the External Sync Merger is idempotent — applying the sync
merge a second time with the same incoming batch (whose records carry
`type: "outlook"`, as the external producer emits them) returns exactly the
document produced by the first application: same events in the same order,
same statuses. -/
theorem C3_sync_idempotent (d : Doc) (batch : List Event)
    (hb : ∀ e ∈ batch, e.type = "outlook") :
    mergeExternal (mergeExternal d batch) batch = mergeExternal d batch := by
  have hbatch : batch.filter (fun ev => !(ev.type == "outlook")) = [] := by
    rw [List.filter_eq_nil_iff]
    intro e he
    simp [hb e he]
  have hself : ∀ l : List Event,
      (l.filter fun ev => !(ev.type == "outlook")).filter (fun ev => !(ev.type == "outlook")) =
        l.filter fun ev => !(ev.type == "outlook") := by
    intro l
    rw [List.filter_eq_self]
    intro a ha
    exact (List.mem_filter.mp ha).2
  have hev : sortByStart
      (((sortByStart ((d.events.filter fun ev => !(ev.type == "outlook")) ++ batch)).filter
          fun ev => !(ev.type == "outlook")) ++ batch) =
      sortByStart ((d.events.filter fun ev => !(ev.type == "outlook")) ++ batch) := by
    apply sortByStart_congr
    · refine List.Perm.append_right batch ?_
      have h1 : List.Perm
          ((sortByStart ((d.events.filter fun ev => !(ev.type == "outlook")) ++ batch)).filter
            (fun ev => !(ev.type == "outlook")))
          (((d.events.filter fun ev => !(ev.type == "outlook")) ++ batch).filter
            (fun ev => !(ev.type == "outlook"))) :=
        (List.perm_insertionSort startLE _).filter _
      have h2 : (((d.events.filter fun ev => !(ev.type == "outlook")) ++ batch).filter
            (fun ev => !(ev.type == "outlook"))) =
          d.events.filter fun ev => !(ev.type == "outlook") := by
        rw [List.filter_append, hself, hbatch, List.append_nil]
      rw [h2] at h1
      exact h1
    · intro k
      rw [List.filter_append, List.filter_append]
      congr 1
      rw [filter_swap, filter_start_sortByStart, List.filter_append, List.filter_append]
      have hA : ((d.events.filter fun ev => !(ev.type == "outlook")).filter
            (fun e => e.start == k)).filter (fun ev => !(ev.type == "outlook")) =
          (d.events.filter fun ev => !(ev.type == "outlook")).filter (fun e => e.start == k) := by
        rw [filter_swap, hself]
      have hB : (batch.filter (fun e => e.start == k)).filter
            (fun ev => !(ev.type == "outlook")) = [] := by
        rw [filter_swap, hbatch, List.filter_nil]
      rw [hA, hB, List.append_nil]
  have hdoc : mergeExternal (mergeExternal d batch) batch =
      { d with events := (sortByStart
          (((sortByStart ((d.events.filter fun ev => !(ev.type == "outlook")) ++ batch)).filter
              (fun ev => !(ev.type == "outlook"))) ++ batch)) } := rfl
  rw [hdoc, hev]
  rfl

def dC3 : Doc :=
  { insight := ""
    goals := []
    events := [{ id := "o0", taskId := none, type := "outlook", title := "old",
                 start := 7200000, endTime := 10800000, color := none },
               { id := "e1", taskId := some "t1", type := "task", title := "a",
                 start := 0, endTime := 3600000, color := none }] }

def bC3 : List Event :=
  [{ id := "o1", taskId := none, type := "outlook", title := "m",
     start := 3600000, endTime := 7200000, color := none }]

theorem C3_witness :
    (∀ e ∈ bC3, e.type = "outlook") ∧
    mergeExternal (mergeExternal dC3 bC3) bC3 = mergeExternal dC3 bC3 :=
  ⟨by decide, C3_sync_idempotent dC3 bC3 (by decide)⟩

/-! ### Claims about the Event Change Handler -/

def dC7 : Doc :=
  { insight := ""
    goals := []
    events := [{ id := "e1", taskId := some "tA", type := "task", title := "x",
                 start := 0, endTime := 3600000, color := some "#3b82f6" }] }

def evC7 : CalEvent :=
  { id := "e1", title := "x", start := 0, endTime := some 3600000,
    backgroundColor := none, extTaskId := none, extType := some "task" }

/-- Claim C7 fails as stated: when an incoming calendar event matches a
stored event by id, the spread `{...stored, ...newEventData}` overwrites
the stored `taskId` (with `extendedProps?.taskId || event.id`) instead of
preserving it — here the stored `type=task` event with `taskId` `"tA"` ends
up with `taskId` `"e1"` after an update whose incoming event carries no
`taskId`. -/
theorem C7_counterexample :
    (handleEventChange dC7 evC7).events.map Event.taskId = [some "e1"] ∧
    dC7.events.map Event.taskId = [some "tA"] ∧
    dC7.events.map Event.type = ["task"] := by
  exact ⟨rfl, rfl, rfl⟩

/-- Claim C7 (amended): `handleEventChange` builds a full record from the
incoming event — `type` forced to `"task"`, `taskId` the incoming
originating task id (or the event id when none is supplied), default color
`"#10b981"` when none is supplied — and writes it over the stored event
with that id (replacing every field, including `taskId` and `type`), or
appends it when no event with that id exists; the list is then re-sorted. -/
theorem C7_merge_amended (d : Doc) (ev : CalEvent) :
    (newEventData ev).type = "task" ∧
    (newEventData ev).taskId = some (match ev.extTaskId with
      | some t => if t = "" then ev.id else t
      | none => ev.id) ∧
    (handleEventChange d ev).events.Perm
      (match d.events.findIdx? (fun e => e.id == ev.id) with
        | some i => d.events.set i (newEventData ev)
        | none => d.events ++ [newEventData ev]) := by
  refine ⟨rfl, rfl, ?_⟩
  have h : (handleEventChange d ev).events =
      sortByStart (match d.events.findIdx? (fun e => e.id == ev.id) with
        | some i => d.events.set i (newEventData ev)
        | none => d.events ++ [newEventData ev]) := rfl
  rw [h]
  exact List.perm_insertionSort startLE _

def dC4 : Doc :=
  { insight := ""
    goals := []
    events := [{ id := "o1", taskId := none, type := "outlook", title := "mtg",
                 start := 0, endTime := 3600000, color := some "#888888" }] }

/-- A move gesture on the outlook event `o1` (new start two hours later),
as FullCalendar hands it to `eventDrop`. -/
def evC4move : CalEvent :=
  { id := "o1", title := "mtg", start := 7200000, endTime := some 10800000,
    backgroundColor := none, extTaskId := none, extType := some "outlook" }

/-- A click (deletion gesture) on the outlook event `o1`. -/
def evC4click : CalEvent :=
  { id := "o1", title := "mtg", start := 0, endTime := some 3600000,
    backgroundColor := none, extTaskId := none, extType := some "outlook" }

/-- Claim C4 is the stated intent (and what the code's own notice
"Outlook fixed events cannot be changed" promises), but only the deletion
gesture (`eventClick`) is guarded: a move/resize gesture goes straight to
`handleEventChange`, which rewrites the stored outlook event — it even
retypes it to `"task"` — so the document is mutated. -/
theorem C4_outlook_guard_bug :
    eventClickDelete dC4 evC4click true = dC4 ∧
    (handleEventChange dC4 evC4move).events.map Event.type = ["task"] ∧
    dC4.events.map Event.type = ["outlook"] := by
  exact ⟨rfl, rfl, rfl⟩

/-! ### Claims about sync failure handling -/

def dC9 : Doc :=
  { insight := ""
    goals := []
    events := [{ id := "o1", taskId := none, type := "outlook", title := "mtg",
                 start := 0, endTime := 3600000, color := none }] }

/-- Claim C9 holds for an abnormal process exit and for output that is not
parseable JSON (document untouched), but not for output that parses to a
non-iterable JSON value: the line removing `type=outlook` events has
already run when `push(...newEvents)` throws, so the failure notice fires
with the in-memory document already mutated (its outlook events dropped). -/
theorem C9_sync_failure_bug :
    syncCallback dC9 SyncOutcome.procError = dC9 ∧
    syncCallback dC9 SyncOutcome.parseError = dC9 ∧
    syncCallback dC9 SyncOutcome.nonIterable ≠ dC9 := by
  refine ⟨rfl, rfl, ?_⟩
  intro h
  have h2 := congrArg (fun x : Doc => x.events.length) h
  exact absurd h2 (by decide)

end Weekplan
